import Mathlib

/-!
MERL reflectance plugins (`merl_abc.cpp`, `merl_sgd.cpp`).

A shallow embedding of the two BSDF plugins `ABC` and `SGD` and of the
dataset-name derivation of their constructors.

Numbers.  A `Float` is modelled by an exact rational; rounding, overflow and
NaN inputs are outside the model.  The plugins divide in two places
(`pdf` and `sample`), and a division may be by zero, so the result of a
division is a `FloatVal`: a finite rational, one of the two infinities, or
NaN, following the IEEE rules for a division by (positive) zero.

External code.  `djb::abc`, `djb::sgd`, `djb::tabular` (file `dj_brdf.h`) are
black boxes: their operations are fields of structures.  The conversions
`djb::dir(djb::vec3(v.x, v.y, v.z))` between the renderer's vectors and the
library's are part of those black boxes.  `normalize` needs a square root
and is an argument of the functions that call it.
-/

namespace Merl

/-! ## Vectors and Float results -/

/-- The renderer's `Vector` / `Normal`: three Float components. -/
structure Vec3 where
  x : ℚ
  y : ℚ
  z : ℚ
deriving DecidableEq

/-- The renderer's `Point2`: the pair of canonical random numbers. -/
structure Point2 where
  x : ℚ
  y : ℚ
deriving DecidableEq

/-- The value of a Float expression that contains a division. -/
inductive FloatVal where
  | fin (q : ℚ)
  | pinf
  | ninf
  | nan
deriving DecidableEq

/-- Float division `a / b` of two finite values; the divisors of the plugins
are `4 * absDot(..)` and the literal `0.0f`, so a zero divisor is `+0`. -/
def fdiv (a b : ℚ) : FloatVal :=
  if b = 0 then
    (if 0 < a then FloatVal.pinf else if a < 0 then FloatVal.ninf else FloatVal.nan)
  else FloatVal.fin (a / b)

/-- Float division `a / d` of a finite value by the value of an earlier
division. -/
def fdivVal (a : ℚ) (d : FloatVal) : FloatVal :=
  match d with
  | FloatVal.fin b => fdiv a b
  | FloatVal.pinf => FloatVal.fin 0
  | FloatVal.ninf => FloatVal.fin 0
  | FloatVal.nan => FloatVal.nan

/-- The renderer's `Spectrum` (three colour channels, as `Color3`). -/
structure Spectrum where
  r : FloatVal
  g : FloatVal
  b : FloatVal
deriving DecidableEq

/-- The constructor `Spectrum(0.0f)`. -/
def Spectrum.zero : Spectrum :=
  ⟨FloatVal.fin 0, FloatVal.fin 0, FloatVal.fin 0⟩

/-- The conversion `Color3(value.x, value.y, value.z)` of a library vector. -/
def Color3 (v : Vec3) : Spectrum :=
  ⟨FloatVal.fin v.x, FloatVal.fin v.y, FloatVal.fin v.z⟩

/-- The quotient `djb::vec3 / Float`, channel by channel, as a colour. -/
def Color3div (v : Vec3) (d : FloatVal) : Spectrum :=
  ⟨fdivVal v.x d, fdivVal v.y d, fdivVal v.z d⟩

/-- A channel is an ordinary non-negative number (not infinite, not NaN,
not negative). -/
def FloatVal.finiteNonneg (v : FloatVal) : Prop :=
  match v with
  | FloatVal.fin q => 0 ≤ q
  | _ => False

/-- `Frame::cosTheta(v)`: the cosine with the shading normal, which is the
z axis of the local frame. -/
def cosTheta (v : Vec3) : ℚ := v.z

/-- The renderer's `dot(a, b)`. -/
def dot (a b : Vec3) : ℚ := a.x * b.x + a.y * b.y + a.z * b.z

/-- The renderer's `absDot(a, b)`. -/
def absDot (a b : Vec3) : ℚ := |dot a b|

/-- The renderer's `a + b` on vectors. -/
def Vec3.add (a b : Vec3) : Vec3 := ⟨a.x + b.x, a.y + b.y, a.z + b.z⟩

/-- The renderer's `reflect(wi, n)`, which is `2 * dot(wi, n) * Vector(n) - wi`. -/
def reflect (wi n : Vec3) : Vec3 :=
  ⟨2 * dot wi n * n.x - wi.x, 2 * dot wi n * n.y - wi.y, 2 * dot wi n * n.z - wi.z⟩

/-! ## Lobe flags, measures, sampling record -/

/-- Flag `BSDF::EDiffuseReflection` of the renderer's lobe-type bit field. -/
def EDiffuseReflection : Nat := 0x00002

/-- Flag `BSDF::EGlossyReflection` of the renderer's lobe-type bit field. -/
def EGlossyReflection : Nat := 0x00008

/-- Flag `BSDF::EFrontSide` of the renderer's lobe-type bit field. -/
def EFrontSide : Nat := 0x08000

/-- The renderer's `EMeasure`. -/
inductive EMeasure where
  | EInvalidMeasure
  | ESolidAngle
  | ELength
  | EArea
  | EDiscrete
deriving DecidableEq

/-- The fields of `BSDFSamplingRecord` that the plugins read or write. -/
structure BSDFSamplingRecord where
  wi : Vec3
  wo : Vec3
  eta : ℚ
  typeMask : Nat
  component : Int
  sampledType : Nat
  sampledComponent : Int
deriving DecidableEq

/-! ## The fitting library (black boxes) -/

/-- A fitted model (`djb::abc` or `djb::sgd`): its `evalp(wo, wi)`, outgoing
direction first. -/
structure Brdf where
  evalp : Vec3 → Vec3 → Vec3

/-- The tabulated distribution `djb::tabular`: its `ndf(m)` and its
`sample(wi, u1, u2)`. -/
structure Tabular where
  ndf : Vec3 → ℚ
  sample : Vec3 → ℚ → ℚ → Vec3

/-! ## Class `ABC` -/

/-- An `ABC` surface whose members `m_abc` and `m_tabular` are set. -/
structure ABC where
  m_abc : Brdf
  m_tabular : Tabular

namespace ABC

/-- The list `m_components` that `ABC::configure` builds. -/
def configure : List Nat := [EGlossyReflection ||| EFrontSide]

/-- The method `ABC::eval`. -/
def eval (self : ABC) (bRec : BSDFSamplingRecord) (measure : EMeasure) : Spectrum :=
  if bRec.typeMask &&& EDiffuseReflection = 0 ∨ measure ≠ EMeasure.ESolidAngle
      ∨ cosTheta bRec.wi ≤ 0
      ∨ cosTheta bRec.wo ≤ 0 then
    Spectrum.zero
  else
    Color3 (self.m_abc.evalp bRec.wo bRec.wi)

/-- The method `ABC::PDF`. -/
def PDF (self : ABC) (wm : Vec3) : ℚ :=
  self.m_tabular.ndf wm * cosTheta wm

/-- The method `ABC::pdf`. -/
def pdf (self : ABC) (normalize : Vec3 → Vec3) (bRec : BSDFSamplingRecord)
    (measure : EMeasure) : FloatVal :=
  if measure ≠ EMeasure.ESolidAngle ∨
      cosTheta bRec.wi ≤ 0 ∨
      cosTheta bRec.wo ≤ 0 ∨
      ((bRec.component ≠ -1 ∧ bRec.component ≠ 0) ∨
      bRec.typeMask &&& EGlossyReflection = 0) then
    FloatVal.fin 0
  else
    let H := normalize (bRec.wo.add bRec.wi)
    fdiv (self.PDF H) (4 * absDot bRec.wo H)

/-- The method `ABC::sample(bRec, sample)`: the record as the call leaves it,
and the returned weight. -/
def sample (self : ABC) (normalize : Vec3 → Vec3) (bRec : BSDFSamplingRecord)
    (sample : Point2) : BSDFSamplingRecord × Spectrum :=
  if cosTheta bRec.wi < 0 ∨
      ((bRec.component ≠ -1 ∧ bRec.component ≠ 0) ∨
      bRec.typeMask &&& EGlossyReflection = 0) then
    (bRec, Spectrum.zero)
  else
    let m := self.m_tabular.sample bRec.wi sample.x sample.y
    let bRec1 : BSDFSamplingRecord :=
      { bRec with
        wo := reflect bRec.wi m
        eta := 1
        sampledComponent := 0
        sampledType := EGlossyReflection }
    if cosTheta bRec1.wo ≤ 0 then
      (bRec1, Spectrum.zero)
    else
      (bRec1, Color3div (self.m_abc.evalp bRec1.wo bRec1.wi)
        (self.pdf normalize bRec1 EMeasure.ESolidAngle))

/-- The method `ABC::sample(bRec, pdf_, sample_)`: record, weight and the
density written to `pdf_`. -/
def samplePdf (self : ABC) (normalize : Vec3 → Vec3) (bRec : BSDFSamplingRecord)
    (sample_ : Point2) : BSDFSamplingRecord × Spectrum × FloatVal :=
  let res := self.sample normalize bRec sample_
  (res.1, res.2, self.pdf normalize res.1 EMeasure.ESolidAngle)

end ABC

/-! ## Class `SGD` -/

/-- An `SGD` surface whose members `m_sgd` and `m_tabular` are set. -/
structure SGD where
  m_sgd : Brdf
  m_tabular : Tabular

namespace SGD

/-- The list `m_components` that `SGD::configure` builds. -/
def configure : List Nat := [EGlossyReflection ||| EFrontSide]

/-- The method `SGD::eval`. -/
def eval (self : SGD) (bRec : BSDFSamplingRecord) (measure : EMeasure) : Spectrum :=
  if bRec.typeMask &&& EDiffuseReflection = 0 ∨ measure ≠ EMeasure.ESolidAngle
      ∨ cosTheta bRec.wi ≤ 0
      ∨ cosTheta bRec.wo ≤ 0 then
    Spectrum.zero
  else
    Color3 (self.m_sgd.evalp bRec.wo bRec.wi)

/-- The method `SGD::PDF`. -/
def PDF (self : SGD) (wm : Vec3) : ℚ :=
  self.m_tabular.ndf wm * cosTheta wm

/-- The method `SGD::pdf`. -/
def pdf (self : SGD) (normalize : Vec3 → Vec3) (bRec : BSDFSamplingRecord)
    (measure : EMeasure) : FloatVal :=
  if measure ≠ EMeasure.ESolidAngle ∨
      cosTheta bRec.wi ≤ 0 ∨
      cosTheta bRec.wo ≤ 0 ∨
      ((bRec.component ≠ -1 ∧ bRec.component ≠ 0) ∨
      bRec.typeMask &&& EGlossyReflection = 0) then
    FloatVal.fin 0
  else
    let H := normalize (bRec.wo.add bRec.wi)
    fdiv (self.PDF H) (4 * absDot bRec.wo H)

/-- The method `SGD::sample(bRec, sample)`: the record as the call leaves it,
and the returned weight. -/
def sample (self : SGD) (normalize : Vec3 → Vec3) (bRec : BSDFSamplingRecord)
    (sample : Point2) : BSDFSamplingRecord × Spectrum :=
  if cosTheta bRec.wi < 0 ∨
      ((bRec.component ≠ -1 ∧ bRec.component ≠ 0) ∨
      bRec.typeMask &&& EGlossyReflection = 0) then
    (bRec, Spectrum.zero)
  else
    let m := self.m_tabular.sample bRec.wi sample.x sample.y
    let bRec1 : BSDFSamplingRecord :=
      { bRec with
        wo := reflect bRec.wi m
        eta := 1
        sampledComponent := 0
        sampledType := EGlossyReflection }
    if cosTheta bRec1.wo ≤ 0 then
      (bRec1, Spectrum.zero)
    else
      (bRec1, Color3div (self.m_sgd.evalp bRec1.wo bRec1.wi)
        (self.pdf normalize bRec1 EMeasure.ESolidAngle))

/-- The method `SGD::sample(bRec, pdf_, sample_)`: record, weight and the
density written to `pdf_`. -/
def samplePdf (self : SGD) (normalize : Vec3 → Vec3) (bRec : BSDFSamplingRecord)
    (sample_ : Point2) : BSDFSamplingRecord × Spectrum × FloatVal :=
  let res := self.sample normalize bRec sample_
  (res.1, res.2, self.pdf normalize res.1 EMeasure.ESolidAngle)

end SGD

/-! ## Concrete surfaces for evaluation -/

/-- Exact normalisation `v / v.length()` for vectors of rational length. -/
def normalizeQ (v : Vec3) : Vec3 :=
  let len := Rat.sqrt (v.x * v.x + v.y * v.y + v.z * v.z)
  ⟨v.x / len, v.y / len, v.z / len⟩

/-- A fitted model that is white in every direction. -/
def whiteBrdf : Brdf := ⟨fun _ _ => ⟨1, 1, 1⟩⟩

/-- A distribution with `ndf = 1` whose `sample` always draws the normal `m`. -/
def constTabular (m : Vec3) : Tabular := ⟨fun _ => 1, fun _ _ _ => m⟩

/-- The straight-up direction `(0, 0, 1)`. -/
def up : Vec3 := ⟨0, 0, 1⟩

/-- The grazing direction `(1, 0, 0)`, whose cosine with the normal is 0. -/
def grazing : Vec3 := ⟨1, 0, 0⟩

/-- The unit normal `(3/5, 0, 4/5)`. -/
def tilted : Vec3 := ⟨3/5, 0, 4/5⟩

/-- A record with the given directions, lobe mask and component. -/
def mkRec (wi wo : Vec3) (typeMask : Nat) (component : Int) : BSDFSamplingRecord :=
  { wi := wi, wo := wo, eta := 0, typeMask := typeMask, component := component,
    sampledType := 0, sampledComponent := -1 }

/-- The renderer's `Spectrum / Float` for a spectrum and a divisor that may
themselves be results of divisions (IEEE rules, a zero divisor being `+0`). -/
def FloatVal.div : FloatVal → FloatVal → FloatVal
  | FloatVal.fin a, d => fdivVal a d
  | FloatVal.nan, _ => FloatVal.nan
  | _, FloatVal.nan => FloatVal.nan
  | FloatVal.pinf, FloatVal.fin b => if b < 0 then FloatVal.ninf else FloatVal.pinf
  | FloatVal.ninf, FloatVal.fin b => if b < 0 then FloatVal.pinf else FloatVal.ninf
  | _, _ => FloatVal.nan

/-- The quotient of a spectrum by a Float, channel by channel. -/
def Spectrum.div (s : Spectrum) (d : FloatVal) : Spectrum :=
  ⟨s.r.div d, s.g.div d, s.b.div d⟩

/-! ## Constructors: dataset name and members

A C string is the list of its `char`s, one byte each, before the terminating
NUL. -/

/-- The byte of the C character `/`. -/
def chSlash : UInt8 := 47

/-- The byte of the C character `.`. -/
def chDot : UInt8 := 46

/-- The bytes of a C string literal written in ASCII. -/
def cstr (s : String) : List UInt8 := s.toList.map (fun c => c.toNat.toUInt8)

/-- The C function `strrchr(s, c)`: the part of `s` that starts at the last
occurrence of `c`; `none` is the null pointer it returns when `c` does not
occur. -/
def strrchr : List UInt8 → UInt8 → Option (List UInt8)
  | [], _ => none
  | x :: xs, c =>
    match strrchr xs c with
    | some r => some r
    | none => if x = c then some (x :: xs) else none

/-- The size of the buffer `char name[128]`. -/
def nameSize : Nat := 128

/-- The call `sscanf(input, "%[^.]s", name)`: the string stored in `name`.
The conversion `%[^.]` takes the longest run of characters other than `.`
from the start of the input.  `none` stands for the two cases in which the
content of `name` is not defined: an empty run (nothing is stored, the buffer
stays uninitialised) and a run that does not fit in the buffer together with
its terminator. -/
def sscanfName (input : List UInt8) : Option (List UInt8) :=
  let run := input.takeWhile (fun c => decide (c ≠ chDot))
  if run = [] then none
  else if nameSize < run.length + 1 then none
  else some run

/-- The dataset identifier that the constructors compute from the resolved
file name: `sscanf(strrchr(path, '/') + 1, "%[^.]s", name)`.  `none` when the
behaviour is undefined (null pointer from `strrchr`, or `name` undefined). -/
def datasetName (m_filename : List UInt8) : Option (List UInt8) :=
  match strrchr m_filename chSlash with
  | none => none
  | some p => sscanfName p.tail

/-- The base name in the words of the specification: the characters after the
last `/`, the whole path when there is none. -/
def specBaseName (path : List UInt8) : List UInt8 :=
  (path.reverse.takeWhile (fun c => decide (c ≠ chSlash))).reverse

/-- The identifier in the words of the specification: the base name up to, but
not including, its last `.`; the whole base name when it has none. -/
def specIdentifier (path : List UInt8) : List UInt8 :=
  let base := specBaseName path
  if chDot ∈ base then
    ((base.reverse.dropWhile (fun c => decide (c ≠ chDot))).drop 1).reverse
  else base

/-- A loaded MERL table (`djb::merl`): its samples. -/
abbrev MerlTable := List ℚ

/-- The constructors of `dj_brdf.h` that the plugins call. -/
structure Djb where
  /-- The constructors `djb::abc(name)` / `djb::sgd(name)`. -/
  brdf : List UInt8 → Brdf
  /-- The constructor `djb::merl(path)`; `none` when loading fails. -/
  merl : List UInt8 → Option MerlTable
  /-- The constructor `djb::tabular(GAF_SMITH, merl, 90, true)`. -/
  tabular : MerlTable → Tabular

/-- The pointer members of an `ABC` object after a constructor has run; `none`
is a member that the constructor did not assign. -/
structure ABC.Members where
  m_abc : Option Brdf
  m_tabular : Option Tabular

/-- The constructor `ABC(const Properties &)` on the resolved file name;
`none` when it does not complete (undefined name, or the table fails to
load). -/
def ABC.ofProps (lib : Djb) (m_filename : List UInt8) : Option ABC.Members :=
  match datasetName m_filename with
  | none => none
  | some name =>
    let m_abc := lib.brdf name
    match lib.merl m_filename with
    | none => none
    | some merl => some ⟨some m_abc, some (lib.tabular merl)⟩

/-- The constructor `ABC(Stream *, InstanceManager *)`: the base-class
constructor and `configure()`, nothing else. -/
def ABC.ofStream (_stream : List Nat) : ABC.Members := ⟨none, none⟩

/-- The surface on which the queries run, when both members are set. -/
def ABC.Members.surface (o : ABC.Members) : Option ABC :=
  match o.m_abc, o.m_tabular with
  | some b, some t => some ⟨b, t⟩
  | _, _ => none

/-- The method `ABC::serialize`: what `BSDF::serialize` writes, nothing more. -/
def ABC.serialize (_self : ABC.Members) (bsdfSerialize : List Nat) : List Nat :=
  bsdfSerialize

/-- The pointer members of an `SGD` object after a constructor has run; `none`
is a member that the constructor did not assign. -/
structure SGD.Members where
  m_tabular : Option Tabular
  m_sgd : Option Brdf

/-- The constructor `SGD(const Properties &)` on the resolved file name;
`none` when it does not complete (the table fails to load, or undefined
name). -/
def SGD.ofProps (lib : Djb) (m_filename : List UInt8) : Option SGD.Members :=
  match lib.merl m_filename with
  | none => none
  | some merl =>
    let m_tabular := lib.tabular merl
    match datasetName m_filename with
    | none => none
    | some name => some ⟨some m_tabular, some (lib.brdf name)⟩

/-- The constructor `SGD(Stream *, InstanceManager *)`: the base-class
constructor and `configure()`, nothing else. -/
def SGD.ofStream (_stream : List Nat) : SGD.Members := ⟨none, none⟩

/-- The surface on which the queries run, when both members are set. -/
def SGD.Members.surface (o : SGD.Members) : Option SGD :=
  match o.m_sgd, o.m_tabular with
  | some b, some t => some ⟨b, t⟩
  | _, _ => none

/-- The method `SGD::serialize`: what `BSDF::serialize` writes, nothing more. -/
def SGD.serialize (_self : SGD.Members) (bsdfSerialize : List Nat) : List Nat :=
  bsdfSerialize

/-- A library whose models are white, whose tables always load and whose
distribution always draws the straight-up normal. -/
def testDjb : Djb := ⟨fun _ => whiteBrdf, fun _ => some [], fun _ => constTabular up⟩

/-! ## Helper lemmas -/

theorem sqrt_four : Rat.sqrt 4 = 2 := by
  have h := Rat.sqrt_eq 2
  rwa [show (2:ℚ) * 2 = 4 by norm_num, show |(2:ℚ)| = 2 by norm_num] at h

theorem SGD.eval_eq_ABC (s : SGD) : s.eval = (ABC.mk s.m_sgd s.m_tabular).eval := rfl

theorem SGD.pdf_eq_ABC (s : SGD) : s.pdf = (ABC.mk s.m_sgd s.m_tabular).pdf := rfl

theorem SGD.sample_eq_ABC (s : SGD) : s.sample = (ABC.mk s.m_sgd s.m_tabular).sample := rfl

theorem ABC.pdf_spec (normalize : Vec3 → Vec3) (a : ABC) (bRec : BSDFSamplingRecord)
    (measure : EMeasure) :
    a.pdf normalize bRec measure =
      if measure = EMeasure.ESolidAngle ∧ 0 < cosTheta bRec.wi ∧ 0 < cosTheta bRec.wo ∧
          (bRec.component = -1 ∨ bRec.component = 0) ∧
          bRec.typeMask &&& EGlossyReflection ≠ 0 then
        fdiv
          (a.m_tabular.ndf
              (normalize ⟨bRec.wi.x + bRec.wo.x, bRec.wi.y + bRec.wo.y, bRec.wi.z + bRec.wo.z⟩) *
            cosTheta
              (normalize ⟨bRec.wi.x + bRec.wo.x, bRec.wi.y + bRec.wo.y, bRec.wi.z + bRec.wo.z⟩))
          (4 * |dot bRec.wo
              (normalize ⟨bRec.wi.x + bRec.wo.x, bRec.wi.y + bRec.wo.y, bRec.wi.z + bRec.wo.z⟩)|)
      else FloatVal.fin 0 := by
  have hadd : bRec.wo.add bRec.wi =
      ⟨bRec.wi.x + bRec.wo.x, bRec.wi.y + bRec.wo.y, bRec.wi.z + bRec.wo.z⟩ := by
    simp [Vec3.add, add_comm]
  unfold ABC.pdf ABC.PDF absDot
  rw [hadd]
  by_cases h : measure = EMeasure.ESolidAngle ∧ 0 < cosTheta bRec.wi ∧ 0 < cosTheta bRec.wo ∧
      (bRec.component = -1 ∨ bRec.component = 0) ∧ bRec.typeMask &&& EGlossyReflection ≠ 0
  · rw [if_pos h, if_neg]
    obtain ⟨h1, h2, h3, h4, h5⟩ := h
    intro hc
    rcases hc with hc | hc | hc | hc | hc
    · exact hc h1
    · exact absurd h2 (not_lt.mpr hc)
    · exact absurd h3 (not_lt.mpr hc)
    · rcases h4 with h4 | h4
      · exact hc.1 h4
      · exact hc.2 h4
    · exact h5 hc
  · rw [if_neg h, if_pos]
    by_contra hc
    apply h
    simp only [not_or, not_and, not_le, ne_eq, not_not] at hc
    obtain ⟨h1, h2, h3, h4, h5⟩ := hc
    refine ⟨h1, h2, h3, ?_, h5⟩
    by_cases hm : bRec.component = -1
    · exact Or.inl hm
    · exact Or.inr (h4 hm)

theorem ABC.eval_zero_of_cos (a : ABC) (bRec : BSDFSamplingRecord) (measure : EMeasure)
    (h : cosTheta bRec.wi ≤ 0 ∨ cosTheta bRec.wo ≤ 0) :
    a.eval bRec measure = Spectrum.zero := by
  unfold ABC.eval
  rw [if_pos]
  rcases h with h | h
  · exact Or.inr (Or.inr (Or.inl h))
  · exact Or.inr (Or.inr (Or.inr h))

theorem ABC.pdf_zero_of_cos (normalize : Vec3 → Vec3) (a : ABC) (bRec : BSDFSamplingRecord)
    (measure : EMeasure) (h : cosTheta bRec.wi ≤ 0 ∨ cosTheta bRec.wo ≤ 0) :
    a.pdf normalize bRec measure = FloatVal.fin 0 := by
  unfold ABC.pdf
  rw [if_pos]
  rcases h with h | h
  · exact Or.inr (Or.inl h)
  · exact Or.inr (Or.inr (Or.inl h))

theorem ABC.sample_of_fail (normalize : Vec3 → Vec3) (a : ABC) (bRec : BSDFSamplingRecord)
    (u : Point2)
    (h : cosTheta bRec.wi < 0 ∨ (bRec.component ≠ -1 ∧ bRec.component ≠ 0) ∨
      bRec.typeMask &&& EGlossyReflection = 0) :
    a.sample normalize bRec u = (bRec, Spectrum.zero) := by
  unfold ABC.sample
  rw [if_pos]
  rcases h with h | h | h
  · exact Or.inl h
  · exact Or.inr (Or.inl h)
  · exact Or.inr (Or.inr h)

theorem ABC.sample_of_pass (normalize : Vec3 → Vec3) (a : ABC) (bRec : BSDFSamplingRecord)
    (u : Point2) (hwi : 0 ≤ cosTheta bRec.wi)
    (hc : bRec.component = -1 ∨ bRec.component = 0)
    (hm : bRec.typeMask &&& EGlossyReflection ≠ 0) :
    a.sample normalize bRec u =
      if cosTheta (reflect bRec.wi (a.m_tabular.sample bRec.wi u.x u.y)) ≤ 0 then
        ({ bRec with
            wo := reflect bRec.wi (a.m_tabular.sample bRec.wi u.x u.y)
            eta := 1
            sampledComponent := 0
            sampledType := EGlossyReflection }, Spectrum.zero)
      else
        ({ bRec with
            wo := reflect bRec.wi (a.m_tabular.sample bRec.wi u.x u.y)
            eta := 1
            sampledComponent := 0
            sampledType := EGlossyReflection },
          Color3div
            (a.m_abc.evalp (reflect bRec.wi (a.m_tabular.sample bRec.wi u.x u.y)) bRec.wi)
            (a.pdf normalize
              { bRec with
                wo := reflect bRec.wi (a.m_tabular.sample bRec.wi u.x u.y)
                eta := 1
                sampledComponent := 0
                sampledType := EGlossyReflection } EMeasure.ESolidAngle)) := by
  unfold ABC.sample
  rw [if_neg]
  intro h
  rcases h with h | h | h
  · exact absurd hwi (not_le.mpr h)
  · rcases hc with hc | hc
    · exact h.1 hc
    · exact h.2 hc
  · exact hm h

theorem ABC.sample_record (normalize : Vec3 → Vec3) (a : ABC) (bRec : BSDFSamplingRecord)
    (u : Point2) (hwi : 0 ≤ cosTheta bRec.wi)
    (hc : bRec.component = -1 ∨ bRec.component = 0)
    (hm : bRec.typeMask &&& EGlossyReflection ≠ 0) :
    (a.sample normalize bRec u).1 =
      { bRec with
        wo := reflect bRec.wi (a.m_tabular.sample bRec.wi u.x u.y)
        eta := 1
        sampledComponent := 0
        sampledType := EGlossyReflection } := by
  rw [ABC.sample_of_pass normalize a bRec u hwi hc hm]
  split <;> rfl

theorem ABC.sample_weight_zero_iff (normalize : Vec3 → Vec3) (a : ABC)
    (bRec : BSDFSamplingRecord) (u : Point2) (hwi : 0 ≤ cosTheta bRec.wi)
    (hc : bRec.component = -1 ∨ bRec.component = 0)
    (hm : bRec.typeMask &&& EGlossyReflection ≠ 0) :
    (a.sample normalize bRec u).2 = Spectrum.zero ↔
      (cosTheta (a.sample normalize bRec u).1.wo ≤ 0 ∨
        Color3div
          (a.m_abc.evalp (a.sample normalize bRec u).1.wo (a.sample normalize bRec u).1.wi)
          (a.pdf normalize (a.sample normalize bRec u).1 EMeasure.ESolidAngle) =
        Spectrum.zero) := by
  rw [ABC.sample_record normalize a bRec u hwi hc hm,
    ABC.sample_of_pass normalize a bRec u hwi hc hm]
  by_cases h : cosTheta (reflect bRec.wi (a.m_tabular.sample bRec.wi u.x u.y)) ≤ 0
  · rw [if_pos h]
    exact ⟨fun _ => Or.inl h, fun _ => rfl⟩
  · rw [if_neg h]
    constructor
    · intro hz
      exact Or.inr hz
    · intro hz
      rcases hz with hz | hz
      · exact absurd hz h
      · exact hz

/-! ### The dataset name -/

theorem strrchr_none_of_not_mem (s : List UInt8) (c : UInt8) (h : c ∉ s) :
    strrchr s c = none := by
  induction s with
  | nil => rfl
  | cons x xs ih =>
    have hx : x ≠ c := fun e => h (by simp [e])
    have hxs : c ∉ xs := fun e => h (by simp [e])
    simp [strrchr, ih hxs, hx]

theorem strrchr_append_last (dir base : List UInt8) (c : UInt8) (h : c ∉ base) :
    strrchr (dir ++ c :: base) c = some (c :: base) := by
  induction dir with
  | nil => simp [strrchr, strrchr_none_of_not_mem base c h]
  | cons x xs ih => simp [strrchr, ih]

theorem takeWhile_stem (stem ext : List UInt8) (hs : chDot ∉ stem)
    (he : ext = [] ∨ ∃ r, ext = chDot :: r) :
    (stem ++ ext).takeWhile (fun c => decide (c ≠ chDot)) = stem := by
  induction stem with
  | nil =>
    rcases he with he | ⟨r, he⟩
    · simp [he]
    · simp [he]
  | cons x xs ih =>
    have hx : x ≠ chDot := fun e => hs (by simp [e])
    have hxs : chDot ∉ xs := fun e => hs (by simp [e])
    have h1 := ih hxs
    simp only [decide_not] at h1
    simp [List.takeWhile, hx, h1]

theorem datasetName_stem (dir stem ext : List UInt8)
    (hslash : chSlash ∉ stem ++ ext) (hdot : chDot ∉ stem)
    (hext : ext = [] ∨ ∃ r, ext = chDot :: r)
    (hne : stem ≠ []) (hlen : stem.length < 128) :
    datasetName (dir ++ chSlash :: (stem ++ ext)) = some stem := by
  unfold datasetName
  rw [strrchr_append_last dir (stem ++ ext) chSlash hslash]
  simp only [List.tail_cons]
  unfold sscanfName
  simp only [takeWhile_stem stem ext hdot hext]
  rw [if_neg hne, if_neg]
  unfold nameSize
  omega

theorem datasetName_none_of_long (dir stem ext : List UInt8)
    (hslash : chSlash ∉ stem ++ ext) (hdot : chDot ∉ stem)
    (hext : ext = [] ∨ ∃ r, ext = chDot :: r) (hlen : 128 ≤ stem.length) :
    datasetName (dir ++ chSlash :: (stem ++ ext)) = none := by
  unfold datasetName
  rw [strrchr_append_last dir (stem ++ ext) chSlash hslash]
  simp only [List.tail_cons]
  unfold sscanfName
  simp only [takeWhile_stem stem ext hdot hext]
  have hne : stem ≠ [] := by
    intro h
    rw [h] at hlen
    simp at hlen
  rw [if_neg hne, if_pos]
  unfold nameSize
  omega

theorem datasetName_long_example :
    datasetName ((cstr "/d/") ++ (List.replicate 128 97 ++ (cstr ".binary"))) = none := by
  have h := datasetName_none_of_long (cstr "/d") (List.replicate 128 97) (cstr ".binary")
    (by simp [List.mem_replicate]; decide) (by simp [List.mem_replicate]; decide)
    (Or.inr ⟨(cstr "binary"), rfl⟩) (by simp)
  simpa using h

/-! ## The claims -/

/-- C1 (the code departs from it): a record whose lobe mask is exactly the
glossy-reflection flag, under the solid-angle measure and with both directions
straight up, satisfies every condition of the claim, yet `eval` of both
classes returns the zero spectrum although `evalp(wo, wi)` is `(1, 1, 1)`:
`eval` tests the diffuse-reflection flag, which the lobe that `configure`
declares does not carry. -/
theorem eval_glossy_mask_returns_zero :
    (∀ c ∈ ABC.configure ++ SGD.configure,
      c &&& EGlossyReflection ≠ 0 ∧ c &&& EDiffuseReflection = 0) ∧
    EGlossyReflection &&& EGlossyReflection ≠ 0 ∧
    0 < cosTheta up ∧
    (ABC.mk whiteBrdf (constTabular up)).eval (mkRec up up EGlossyReflection (-1))
        EMeasure.ESolidAngle = Spectrum.zero ∧
    (SGD.mk whiteBrdf (constTabular up)).eval (mkRec up up EGlossyReflection (-1))
        EMeasure.ESolidAngle = Spectrum.zero ∧
    Color3 (whiteBrdf.evalp up up) ≠ Spectrum.zero := by
  refine ⟨by decide, by decide, by decide, by decide, by decide, by decide⟩

/-- C2: for every record and measure, `pdf` of both classes returns
`ndf(H) * cosTheta(H) / (4 * |wo . H|)` with `H = normalize(wi + wo)` when the
measure is solid angle, both cosines are positive, the component is -1 or 0
and the mask includes glossy reflection, and returns 0 in every other case. -/
theorem pdf_is_tabulated_density (normalize : Vec3 → Vec3) (a : ABC) (s : SGD)
    (bRec : BSDFSamplingRecord) (measure : EMeasure) :
    (a.pdf normalize bRec measure =
      if measure = EMeasure.ESolidAngle ∧ 0 < cosTheta bRec.wi ∧ 0 < cosTheta bRec.wo ∧
          (bRec.component = -1 ∨ bRec.component = 0) ∧
          bRec.typeMask &&& EGlossyReflection ≠ 0 then
        fdiv
          (a.m_tabular.ndf
              (normalize ⟨bRec.wi.x + bRec.wo.x, bRec.wi.y + bRec.wo.y, bRec.wi.z + bRec.wo.z⟩) *
            cosTheta
              (normalize ⟨bRec.wi.x + bRec.wo.x, bRec.wi.y + bRec.wo.y, bRec.wi.z + bRec.wo.z⟩))
          (4 * |dot bRec.wo
              (normalize ⟨bRec.wi.x + bRec.wo.x, bRec.wi.y + bRec.wo.y, bRec.wi.z + bRec.wo.z⟩)|)
      else FloatVal.fin 0) ∧
    (s.pdf normalize bRec measure =
      if measure = EMeasure.ESolidAngle ∧ 0 < cosTheta bRec.wi ∧ 0 < cosTheta bRec.wo ∧
          (bRec.component = -1 ∨ bRec.component = 0) ∧
          bRec.typeMask &&& EGlossyReflection ≠ 0 then
        fdiv
          (s.m_tabular.ndf
              (normalize ⟨bRec.wi.x + bRec.wo.x, bRec.wi.y + bRec.wo.y, bRec.wi.z + bRec.wo.z⟩) *
            cosTheta
              (normalize ⟨bRec.wi.x + bRec.wo.x, bRec.wi.y + bRec.wo.y, bRec.wi.z + bRec.wo.z⟩))
          (4 * |dot bRec.wo
              (normalize ⟨bRec.wi.x + bRec.wo.x, bRec.wi.y + bRec.wo.y, bRec.wi.z + bRec.wo.z⟩)|)
      else FloatVal.fin 0) := by
  refine ⟨ABC.pdf_spec normalize a bRec measure, ?_⟩
  rw [SGD.pdf_eq_ABC]
  exact ABC.pdf_spec normalize ⟨s.m_sgd, s.m_tabular⟩ bRec measure

/-- C3 (the code departs from it): with the lobe mask exactly the
glossy-reflection flag, `wi` straight up and the sampled normal straight up,
`sample` accepts (the sampled `wo` has cosine 1) and returns the weight
`(4, 4, 4)`, whereas `eval` over `pdf` on the record it leaves is `(0, 0, 0)`;
with `wi` grazing (cosine 0) `sample` accepts and returns an infinite weight,
whereas `eval` over `pdf` on the record it leaves is `0 / 0`. -/
theorem sample_weight_is_not_eval_over_pdf :
    (0 < cosTheta ((ABC.mk whiteBrdf (constTabular up)).sample normalizeQ
        (mkRec up up EGlossyReflection (-1)) ⟨1/2, 1/2⟩).1.wo ∧
      ((ABC.mk whiteBrdf (constTabular up)).sample normalizeQ
        (mkRec up up EGlossyReflection (-1)) ⟨1/2, 1/2⟩).2 = Color3 ⟨4, 4, 4⟩ ∧
      ((ABC.mk whiteBrdf (constTabular up)).eval
          ((ABC.mk whiteBrdf (constTabular up)).sample normalizeQ
            (mkRec up up EGlossyReflection (-1)) ⟨1/2, 1/2⟩).1 EMeasure.ESolidAngle).div
        ((ABC.mk whiteBrdf (constTabular up)).pdf normalizeQ
          ((ABC.mk whiteBrdf (constTabular up)).sample normalizeQ
            (mkRec up up EGlossyReflection (-1)) ⟨1/2, 1/2⟩).1 EMeasure.ESolidAngle) =
        Spectrum.zero) ∧
    (0 < cosTheta ((ABC.mk whiteBrdf (constTabular tilted)).sample normalizeQ
        (mkRec grazing up (EDiffuseReflection ||| EGlossyReflection) (-1)) ⟨1/2, 1/2⟩).1.wo ∧
      ((ABC.mk whiteBrdf (constTabular tilted)).sample normalizeQ
        (mkRec grazing up (EDiffuseReflection ||| EGlossyReflection) (-1)) ⟨1/2, 1/2⟩).2 =
        ⟨FloatVal.pinf, FloatVal.pinf, FloatVal.pinf⟩ ∧
      ((ABC.mk whiteBrdf (constTabular tilted)).eval
          ((ABC.mk whiteBrdf (constTabular tilted)).sample normalizeQ
            (mkRec grazing up (EDiffuseReflection ||| EGlossyReflection) (-1))
            ⟨1/2, 1/2⟩).1 EMeasure.ESolidAngle).div
        ((ABC.mk whiteBrdf (constTabular tilted)).pdf normalizeQ
          ((ABC.mk whiteBrdf (constTabular tilted)).sample normalizeQ
            (mkRec grazing up (EDiffuseReflection ||| EGlossyReflection) (-1))
            ⟨1/2, 1/2⟩).1 EMeasure.ESolidAngle) =
        ⟨FloatVal.nan, FloatVal.nan, FloatVal.nan⟩) := by
  refine ⟨⟨?_, ?_, ?_⟩, ⟨?_, ?_, ?_⟩⟩
  · simp [ABC.sample, mkRec, up, constTabular, cosTheta, reflect, dot, EGlossyReflection]
    norm_num
  · simp [ABC.sample, ABC.pdf, ABC.PDF, mkRec, up, constTabular, whiteBrdf, cosTheta,
      reflect, dot, absDot, Vec3.add, normalizeQ, EGlossyReflection, Color3div, Color3,
      fdivVal, fdiv]
    norm_num [sqrt_four]
  · simp [ABC.sample, ABC.eval, ABC.pdf, ABC.PDF, mkRec, up, constTabular, whiteBrdf, cosTheta,
      reflect, dot, absDot, Vec3.add, normalizeQ, EGlossyReflection, EDiffuseReflection,
      Spectrum.div, Spectrum.zero, FloatVal.div, fdivVal, fdiv]
    norm_num [sqrt_four, show (8 &&& 2 : Nat) = 0 by decide, fdivVal, fdiv]
  · simp [ABC.sample, mkRec, grazing, tilted, constTabular, cosTheta, reflect, dot,
      EGlossyReflection, EDiffuseReflection]
    norm_num
  · simp [ABC.sample, ABC.pdf, mkRec, grazing, tilted, constTabular, whiteBrdf, cosTheta,
      reflect, dot, EGlossyReflection, EDiffuseReflection, Color3div, fdivVal, fdiv]
    norm_num
  · simp [ABC.sample, ABC.eval, ABC.pdf, mkRec, grazing, tilted, constTabular, whiteBrdf,
      cosTheta, reflect, dot, EGlossyReflection, EDiffuseReflection, Spectrum.div,
      Spectrum.zero, FloatVal.div, fdivVal, fdiv]
    norm_num

/-- C4: for every record that passes the preconditions of `sample`
(`cosTheta(wi) >= 0`, component -1 or 0, mask with glossy reflection) and
every random pair, `sample` of both classes sets `wo = 2 (wi . m) m - wi` with
`m = tabular.sample(wi, u1, u2)`, records `sampledType = EGlossyReflection`,
`sampledComponent = 0`, `eta = 1`, and returns the zero weight if and only if
`cosTheta(wo) <= 0` or the quotient `evalp(wo, wi) / pdf(record)` is zero. -/
theorem sample_reflects_and_records (normalize : Vec3 → Vec3) (a : ABC) (s : SGD)
    (bRec : BSDFSamplingRecord) (u : Point2) (hwi : 0 ≤ cosTheta bRec.wi)
    (hc : bRec.component = -1 ∨ bRec.component = 0)
    (hm : bRec.typeMask &&& EGlossyReflection ≠ 0) :
    (let m := a.m_tabular.sample bRec.wi u.x u.y
     let out := a.sample normalize bRec u
     out.1.wo =
        ⟨2 * (bRec.wi.x * m.x + bRec.wi.y * m.y + bRec.wi.z * m.z) * m.x - bRec.wi.x,
         2 * (bRec.wi.x * m.x + bRec.wi.y * m.y + bRec.wi.z * m.z) * m.y - bRec.wi.y,
         2 * (bRec.wi.x * m.x + bRec.wi.y * m.y + bRec.wi.z * m.z) * m.z - bRec.wi.z⟩ ∧
      out.1.sampledType = EGlossyReflection ∧ out.1.sampledComponent = 0 ∧ out.1.eta = 1 ∧
      (out.2 = Spectrum.zero ↔
        (cosTheta out.1.wo ≤ 0 ∨
          Color3div (a.m_abc.evalp out.1.wo out.1.wi)
            (a.pdf normalize out.1 EMeasure.ESolidAngle) = Spectrum.zero))) ∧
    (let m := s.m_tabular.sample bRec.wi u.x u.y
     let out := s.sample normalize bRec u
     out.1.wo =
        ⟨2 * (bRec.wi.x * m.x + bRec.wi.y * m.y + bRec.wi.z * m.z) * m.x - bRec.wi.x,
         2 * (bRec.wi.x * m.x + bRec.wi.y * m.y + bRec.wi.z * m.z) * m.y - bRec.wi.y,
         2 * (bRec.wi.x * m.x + bRec.wi.y * m.y + bRec.wi.z * m.z) * m.z - bRec.wi.z⟩ ∧
      out.1.sampledType = EGlossyReflection ∧ out.1.sampledComponent = 0 ∧ out.1.eta = 1 ∧
      (out.2 = Spectrum.zero ↔
        (cosTheta out.1.wo ≤ 0 ∨
          Color3div (s.m_sgd.evalp out.1.wo out.1.wi)
            (s.pdf normalize out.1 EMeasure.ESolidAngle) = Spectrum.zero))) := by
  have key : ∀ b : ABC,
      (b.sample normalize bRec u).1.wo =
        ⟨2 * (bRec.wi.x * (b.m_tabular.sample bRec.wi u.x u.y).x +
              bRec.wi.y * (b.m_tabular.sample bRec.wi u.x u.y).y +
              bRec.wi.z * (b.m_tabular.sample bRec.wi u.x u.y).z) *
            (b.m_tabular.sample bRec.wi u.x u.y).x - bRec.wi.x,
         2 * (bRec.wi.x * (b.m_tabular.sample bRec.wi u.x u.y).x +
              bRec.wi.y * (b.m_tabular.sample bRec.wi u.x u.y).y +
              bRec.wi.z * (b.m_tabular.sample bRec.wi u.x u.y).z) *
            (b.m_tabular.sample bRec.wi u.x u.y).y - bRec.wi.y,
         2 * (bRec.wi.x * (b.m_tabular.sample bRec.wi u.x u.y).x +
              bRec.wi.y * (b.m_tabular.sample bRec.wi u.x u.y).y +
              bRec.wi.z * (b.m_tabular.sample bRec.wi u.x u.y).z) *
            (b.m_tabular.sample bRec.wi u.x u.y).z - bRec.wi.z⟩ ∧
      (b.sample normalize bRec u).1.sampledType = EGlossyReflection ∧
      (b.sample normalize bRec u).1.sampledComponent = 0 ∧
      (b.sample normalize bRec u).1.eta = 1 ∧
      ((b.sample normalize bRec u).2 = Spectrum.zero ↔
        (cosTheta (b.sample normalize bRec u).1.wo ≤ 0 ∨
          Color3div
            (b.m_abc.evalp (b.sample normalize bRec u).1.wo (b.sample normalize bRec u).1.wi)
            (b.pdf normalize (b.sample normalize bRec u).1 EMeasure.ESolidAngle) =
          Spectrum.zero)) := by
    intro b
    refine ⟨?_, ?_, ?_, ?_, ABC.sample_weight_zero_iff normalize b bRec u hwi hc hm⟩
    · rw [ABC.sample_record normalize b bRec u hwi hc hm]
      rfl
    · rw [ABC.sample_record normalize b bRec u hwi hc hm]
    · rw [ABC.sample_record normalize b bRec u hwi hc hm]
    · rw [ABC.sample_record normalize b bRec u hwi hc hm]
  exact ⟨key a, key ⟨s.m_sgd, s.m_tabular⟩⟩

/-- C4 at `wi = (0, 0, 1)`, component 0, mask glossy reflection, with the
normal `(3/5, 0, 4/5)` drawn: the sampled `wo` is `(24/25, 0, 7/25)`. -/
theorem sample_reflects_and_records_witness :
    (0 ≤ cosTheta up ∧ ((0 : Int) = -1 ∨ (0 : Int) = 0) ∧
      EGlossyReflection &&& EGlossyReflection ≠ 0) ∧
    ((ABC.mk whiteBrdf (constTabular tilted)).sample normalizeQ
        (mkRec up up EGlossyReflection 0) ⟨1/2, 1/2⟩).1.wo = ⟨24/25, 0, 7/25⟩ ∧
    ((SGD.mk whiteBrdf (constTabular tilted)).sample normalizeQ
        (mkRec up up EGlossyReflection 0) ⟨1/2, 1/2⟩).1.sampledType = EGlossyReflection := by
  have h1 : 0 ≤ cosTheta (mkRec up up EGlossyReflection 0).wi := by decide
  have h2 : (mkRec up up EGlossyReflection 0).component = -1 ∨
      (mkRec up up EGlossyReflection 0).component = 0 := by decide
  have h3 : (mkRec up up EGlossyReflection 0).typeMask &&& EGlossyReflection ≠ 0 := by decide
  have h := sample_reflects_and_records normalizeQ (ABC.mk whiteBrdf (constTabular tilted))
    (SGD.mk whiteBrdf (constTabular tilted)) (mkRec up up EGlossyReflection 0) ⟨1/2, 1/2⟩
    h1 h2 h3
  refine ⟨⟨by decide, by decide, by decide⟩, ?_, h.2.2.1⟩
  have hwo := h.1.1
  simp only [mkRec, up, tilted, constTabular] at hwo ⊢
  rw [hwo]
  norm_num

/-- C5: for every record in which `wi` or `wo` has a non-positive cosine with
the shading normal, `eval` of both classes returns the zero spectrum and `pdf`
returns 0, whatever the lobe mask, the component and the measure. -/
theorem eval_pdf_zero_outside_hemisphere (normalize : Vec3 → Vec3) (a : ABC) (s : SGD)
    (bRec : BSDFSamplingRecord) (measure : EMeasure)
    (h : cosTheta bRec.wi ≤ 0 ∨ cosTheta bRec.wo ≤ 0) :
    a.eval bRec measure = Spectrum.zero ∧ a.pdf normalize bRec measure = FloatVal.fin 0 ∧
    s.eval bRec measure = Spectrum.zero ∧ s.pdf normalize bRec measure = FloatVal.fin 0 := by
  refine ⟨ABC.eval_zero_of_cos a bRec measure h, ABC.pdf_zero_of_cos normalize a bRec measure h,
    ?_, ?_⟩
  · rw [SGD.eval_eq_ABC]
    exact ABC.eval_zero_of_cos _ bRec measure h
  · rw [SGD.pdf_eq_ABC]
    exact ABC.pdf_zero_of_cos normalize _ bRec measure h

/-- C5 at `wi = (0, 0, -1)`, `wo = (0, 0, 1)`, every lobe flag set. -/
theorem eval_pdf_zero_outside_hemisphere_witness :
    (cosTheta (⟨0, 0, -1⟩ : Vec3) ≤ 0 ∨ cosTheta up ≤ 0) ∧
    (ABC.mk whiteBrdf (constTabular up)).eval (mkRec ⟨0, 0, -1⟩ up 0xFFFFFFFF (-1))
      EMeasure.ESolidAngle = Spectrum.zero ∧
    (ABC.mk whiteBrdf (constTabular up)).pdf normalizeQ (mkRec ⟨0, 0, -1⟩ up 0xFFFFFFFF (-1))
      EMeasure.ESolidAngle = FloatVal.fin 0 ∧
    (SGD.mk whiteBrdf (constTabular up)).eval (mkRec ⟨0, 0, -1⟩ up 0xFFFFFFFF (-1))
      EMeasure.ESolidAngle = Spectrum.zero ∧
    (SGD.mk whiteBrdf (constTabular up)).pdf normalizeQ (mkRec ⟨0, 0, -1⟩ up 0xFFFFFFFF (-1))
      EMeasure.ESolidAngle = FloatVal.fin 0 :=
  ⟨Or.inl (by decide),
    eval_pdf_zero_outside_hemisphere normalizeQ (ABC.mk whiteBrdf (constTabular up))
      (SGD.mk whiteBrdf (constTabular up)) (mkRec ⟨0, 0, -1⟩ up 0xFFFFFFFF (-1))
      EMeasure.ESolidAngle (Or.inl (by decide))⟩

/-- C6 (the code departs from it): with `wi = (1, 0, 0)`, whose cosine with the
shading normal is exactly 0, and the normal `(3/5, 0, 4/5)` drawn, `sample` of
both classes does not reject: the record it leaves has density 0 and the
returned weight is the quotient `evalp(wo, wi) / 0`, infinite in every
channel. -/
theorem sample_grazing_divides_by_zero :
    cosTheta grazing ≤ 0 ∧
    (ABC.mk whiteBrdf (constTabular tilted)).pdf normalizeQ
      ((ABC.mk whiteBrdf (constTabular tilted)).sample normalizeQ
        (mkRec grazing up EGlossyReflection (-1)) ⟨1/2, 1/2⟩).1 EMeasure.ESolidAngle =
      FloatVal.fin 0 ∧
    ((ABC.mk whiteBrdf (constTabular tilted)).sample normalizeQ
      (mkRec grazing up EGlossyReflection (-1)) ⟨1/2, 1/2⟩).2 =
      ⟨FloatVal.pinf, FloatVal.pinf, FloatVal.pinf⟩ ∧
    ((SGD.mk whiteBrdf (constTabular tilted)).sample normalizeQ
      (mkRec grazing up EGlossyReflection (-1)) ⟨1/2, 1/2⟩).2 =
      ⟨FloatVal.pinf, FloatVal.pinf, FloatVal.pinf⟩ ∧
    ¬ FloatVal.finiteNonneg FloatVal.pinf := by
  have hA : ((ABC.mk whiteBrdf (constTabular tilted)).sample normalizeQ
      (mkRec grazing up EGlossyReflection (-1)) ⟨1/2, 1/2⟩).2 =
      ⟨FloatVal.pinf, FloatVal.pinf, FloatVal.pinf⟩ := by
    simp [ABC.sample, ABC.pdf, mkRec, grazing, tilted, constTabular, whiteBrdf, cosTheta,
      reflect, dot, EGlossyReflection, Color3div, fdivVal, fdiv]
    norm_num
  refine ⟨by decide, ?_, hA, ?_, ?_⟩
  · apply ABC.pdf_zero_of_cos
    left
    simp [ABC.sample, mkRec, grazing, tilted, constTabular, cosTheta, reflect, dot,
      EGlossyReflection]
    split <;> simp
  · rw [SGD.sample_eq_ABC]
    exact hA
  · simp [FloatVal.finiteNonneg]

/-- C7: for every record that fails a precondition of `sample`
(`cosTheta(wi) < 0`, or a component other than -1 and 0, or a mask without
glossy reflection) and every random pair, `sample` of both classes returns the
zero weight and the record unchanged (`wo`, `eta`, `sampledComponent`,
`sampledType` and every other field). -/
theorem sample_rejects_without_writing (normalize : Vec3 → Vec3) (a : ABC) (s : SGD)
    (bRec : BSDFSamplingRecord) (u : Point2)
    (h : cosTheta bRec.wi < 0 ∨ (bRec.component ≠ -1 ∧ bRec.component ≠ 0) ∨
      bRec.typeMask &&& EGlossyReflection = 0) :
    a.sample normalize bRec u = (bRec, Spectrum.zero) ∧
    s.sample normalize bRec u = (bRec, Spectrum.zero) := by
  refine ⟨ABC.sample_of_fail normalize a bRec u h, ?_⟩
  rw [SGD.sample_eq_ABC]
  exact ABC.sample_of_fail normalize _ bRec u h

/-- C7 at component 3 with both directions straight up and every lobe flag
set. -/
theorem sample_rejects_without_writing_witness :
    (cosTheta up < 0 ∨ ((3 : Int) ≠ -1 ∧ (3 : Int) ≠ 0) ∨
      0xFFFFFFFF &&& EGlossyReflection = 0) ∧
    (ABC.mk whiteBrdf (constTabular tilted)).sample normalizeQ (mkRec up up 0xFFFFFFFF 3)
      ⟨1/2, 1/2⟩ = (mkRec up up 0xFFFFFFFF 3, Spectrum.zero) ∧
    (SGD.mk whiteBrdf (constTabular tilted)).sample normalizeQ (mkRec up up 0xFFFFFFFF 3)
      ⟨1/2, 1/2⟩ = (mkRec up up 0xFFFFFFFF 3, Spectrum.zero) :=
  ⟨Or.inr (Or.inl (by decide)),
    sample_rejects_without_writing normalizeQ (ABC.mk whiteBrdf (constTabular tilted))
      (SGD.mk whiteBrdf (constTabular tilted)) (mkRec up up 0xFFFFFFFF 3) ⟨1/2, 1/2⟩
      (Or.inr (Or.inl (by decide)))⟩

/-- C8 (the code departs from it): with component index 1, both directions
straight up, the solid-angle measure and the diffuse and glossy flags set,
`eval` of both classes returns `evalp(wo, wi) = (1, 1, 1)`, not zero: `eval`
never reads the component index (`pdf` and `sample` do). -/
theorem eval_ignores_component :
    ((1 : Int) ≠ -1 ∧ (1 : Int) ≠ 0) ∧
    (ABC.mk whiteBrdf (constTabular up)).eval
      (mkRec up up (EDiffuseReflection ||| EGlossyReflection) 1) EMeasure.ESolidAngle =
      Color3 ⟨1, 1, 1⟩ ∧
    (SGD.mk whiteBrdf (constTabular up)).eval
      (mkRec up up (EDiffuseReflection ||| EGlossyReflection) 1) EMeasure.ESolidAngle =
      Color3 ⟨1, 1, 1⟩ ∧
    Color3 ⟨1, 1, 1⟩ ≠ Spectrum.zero := by
  refine ⟨by decide, by decide, by decide, by decide⟩

/-- C9 (the claim as stated fails): for `/data/gold.metallic.binary` the
constructors derive `gold`, the base name up to its first `.`, where the claim
gives `gold.metallic`; and the derivation is not defined for a path without
`/`, for a base name that starts with `.`, for an empty base name, or for 128
bytes before the first `.`. -/
theorem datasetName_differs_from_claim :
    datasetName (cstr "/data/gold.metallic.binary") = some (cstr "gold") ∧
    specIdentifier (cstr "/data/gold.metallic.binary") = (cstr "gold.metallic") ∧
    datasetName (cstr "/data/gold.metallic.binary") ≠
      some (specIdentifier (cstr "/data/gold.metallic.binary")) ∧
    datasetName (cstr "gold.binary") = none ∧
    datasetName (cstr "/data/.hidden") = none ∧
    datasetName (cstr "/data/") = none ∧
    datasetName ((cstr "/d/") ++ (List.replicate 128 97 ++ (cstr ".binary"))) = none := by
  refine ⟨by decide, by decide, by decide, by decide, by decide, by decide,
    datasetName_long_example⟩

/-- C9 (amended): for every resolved path that contains a `/`, whose base
name (the bytes after the last `/`) is not empty, does not start with `.` and
has fewer than 128 bytes before its first `.`, the identifier that both
constructors hand to the model constructor is the base name up to, but not
including, its first `.` (the whole base name when it has no `.`).  Here the
path is `dir`, `/`, `stem`, `ext` with no `/` in `stem` and `ext`, no `.` in
`stem`, and `ext` empty or starting with `.`; `stem` is then the base name up
to its first `.`, and it is not empty exactly when the base name is neither
empty nor starts with `.`. -/
theorem constructors_name_is_stem (lib : Djb) (dir stem ext : List UInt8)
    (hslash : chSlash ∉ stem ++ ext) (hdot : chDot ∉ stem)
    (hext : ext = [] ∨ ∃ r, ext = chDot :: r)
    (hne : stem ≠ []) (hlen : stem.length < 128) :
    datasetName (dir ++ chSlash :: (stem ++ ext)) = some stem ∧
    ∀ t : MerlTable, lib.merl (dir ++ chSlash :: (stem ++ ext)) = some t →
      ABC.ofProps lib (dir ++ chSlash :: (stem ++ ext)) =
        some ⟨some (lib.brdf stem), some (lib.tabular t)⟩ ∧
      SGD.ofProps lib (dir ++ chSlash :: (stem ++ ext)) =
        some ⟨some (lib.tabular t), some (lib.brdf stem)⟩ := by
  have hname := datasetName_stem dir stem ext hslash hdot hext hne hlen
  refine ⟨hname, ?_⟩
  intro t ht
  constructor
  · unfold ABC.ofProps
    rw [hname, ht]
  · unfold SGD.ofProps
    rw [hname, ht]

/-- C9 (amended) at `/data/gold.metallic.binary`: the identifier is `gold`. -/
theorem constructors_name_is_stem_witness :
    (chSlash ∉ (cstr "gold") ++ (cstr ".metallic.binary") ∧ chDot ∉ (cstr "gold") ∧
      ((cstr ".metallic.binary") = [] ∨
        ∃ r, (cstr ".metallic.binary") = chDot :: r) ∧
      (cstr "gold") ≠ [] ∧ (cstr "gold").length < 128) ∧
    datasetName ((cstr "/data") ++ chSlash :: ((cstr "gold") ++ (cstr ".metallic.binary"))) =
      some (cstr "gold") :=
  ⟨⟨by decide, by decide, Or.inr ⟨(cstr "metallic.binary"), rfl⟩, by decide, by decide⟩,
    (constructors_name_is_stem testDjb (cstr "/data") (cstr "gold") (cstr ".metallic.binary")
      (by decide) (by decide) (Or.inr ⟨(cstr "metallic.binary"), rfl⟩) (by decide)
      (by decide)).1⟩

/-- The constructor from properties, when it completes, sets both members. -/
theorem ABC.ofProps_sets_members (lib : Djb) (m_filename : List UInt8) (o : ABC.Members)
    (h : ABC.ofProps lib m_filename = some o) : o.surface ≠ none := by
  unfold ABC.ofProps at h
  split at h
  · exact absurd h (by simp)
  · split at h
    · exact absurd h (by simp)
    · cases h
      simp [ABC.Members.surface]

/-- What `serialize` writes does not depend on the members. -/
theorem ABC.serialize_ignores_members (o o2 : ABC.Members) (bsdfSerialize : List Nat) :
    ABC.serialize o bsdfSerialize = ABC.serialize o2 bsdfSerialize := rfl

/-- C10 (the code departs from it): the constructor from a stream, of both
classes, assigns neither the model nor the distribution, so the object it
yields is not a surface on which `eval`, `pdf` and `sample` are defined. -/
theorem ofStream_sets_no_member (stream : List Nat) :
    (ABC.ofStream stream).m_abc = none ∧ (ABC.ofStream stream).m_tabular = none ∧
    (ABC.ofStream stream).surface = none ∧
    (SGD.ofStream stream).m_sgd = none ∧ (SGD.ofStream stream).m_tabular = none ∧
    (SGD.ofStream stream).surface = none :=
  ⟨rfl, rfl, rfl, rfl, rfl, rfl⟩

end Merl
